import Mathlib

/-!
Shallow embedding of the slug service in `src/main.py` of the news-API
repository, together with proofs of the specified properties.

Python strings are modelled as `List Char` (a Python `str` is a sequence of
Unicode code points).  `str.lower()` is modelled on the ASCII range: an
uppercase ASCII letter is shifted to its lowercase form and every other code
point is left unchanged.  (Code points outside ASCII whose Python lowercase
form is again outside ASCII are removed by the following filter either way,
so the composite `slugify` agrees with the source on them.)
-/

namespace NewsMain

/-- Whitespace per CPython (`str.isspace`, `str.strip()` with no argument,
and the class matched by the regex escape for whitespace on `str` patterns):
U+0009..U+000D, U+001C..U+001F, U+0020, U+0085, U+00A0, U+1680,
U+2000..U+200A, U+2028, U+2029, U+202F, U+205F, U+3000. -/
def isPySpace (c : Char) : Bool :=
  let n := c.toNat
  decide ((9 ≤ n ∧ n ≤ 13) ∨ (28 ≤ n ∧ n ≤ 31) ∨ n = 32 ∨ n = 133 ∨ n = 160 ∨
    n = 5760 ∨ (8192 ≤ n ∧ n ≤ 8202) ∨ n = 8232 ∨ n = 8233 ∨ n = 8239 ∨
    n = 8287 ∨ n = 12288)

/-- Lowercase ASCII letter `a`..`z`. -/
def isAsciiLower (c : Char) : Bool :=
  decide (97 ≤ c.toNat ∧ c.toNat ≤ 122)

/-- ASCII digit `0`..`9`. -/
def isAsciiDigit (c : Char) : Bool :=
  decide (48 ≤ c.toNat ∧ c.toNat ≤ 57)

/-- `str.lower()`, modelled on the ASCII range (see the module comment). -/
def pyLower (c : Char) : Char :=
  if 65 ≤ c.toNat ∧ c.toNat ≤ 90 then Char.ofNat (c.toNat + 32) else c

/-- The characters KEPT by `re.sub(r"[^a-z0-9\s-]", "", text)`:
lowercase ASCII letters, ASCII digits, whitespace and the hyphen. -/
def keepChar (c : Char) : Bool :=
  isAsciiLower c || isAsciiDigit c || isPySpace c || c == '-'

/-- The character class of `re.sub(r"[\s-]+", "-", text)`:
whitespace or hyphen. -/
def isSpaceOrHyphen (c : Char) : Bool :=
  isPySpace c || c == '-'

/-- `re.sub(r"[\s-]+", "-", text)`: every maximal run of whitespace/hyphen
characters is replaced by a single hyphen.  The flag records whether the
previous character belonged to such a run (so the run's later characters
produce no output). -/
def collapseAux : Bool → List Char → List Char
  | _, [] => []
  | inRun, c :: rest =>
    if isSpaceOrHyphen c then
      if inRun then collapseAux true rest
      else '-' :: collapseAux true rest
    else
      c :: collapseAux false rest

/-- Remove the trailing run of characters satisfying `p`
(the right half of Python `str.strip`): a character is kept unless it
satisfies `p` and everything after it is dropped. -/
def dropTrailing (p : Char → Bool) : List Char → List Char
  | [] => []
  | c :: rest =>
    if (dropTrailing p rest).isEmpty then (if p c then [] else [c])
    else c :: dropTrailing p rest

/-- Python `str.strip`: remove the leading and the trailing run of
characters satisfying `p`.  Used with `isPySpace` for `text.strip()` and
with `(· == '-')` for `text.strip("-")`. -/
def pyStrip (p : Char → Bool) (l : List Char) : List Char :=
  dropTrailing p (l.dropWhile p)

/-- `slugify` from `src/main.py`:
`text.lower().strip()`, then remove every character that is not a lowercase
letter, digit, whitespace or hyphen, then collapse each whitespace/hyphen run
to a single hyphen, then strip leading/trailing hyphens. -/
def slugify (text : List Char) : List Char :=
  let t1 := pyStrip isPySpace (text.map pyLower)
  let t2 := t1.filter keepChar
  let t3 := collapseAux false t2
  pyStrip (· == '-') t3

/-- `slugify` on Lean strings, for readable statements about examples. -/
def slugifyStr (s : String) : String :=
  String.mk (slugify s.data)

/-- A character allowed in a slug: lowercase ASCII letter, ASCII digit, or
hyphen (used to state the output invariant of `slugify`). -/
def slugChar (c : Char) : Bool :=
  isAsciiLower c || isAsciiDigit c || c == '-'

/-- `noDoubleHyphen l` holds when no two consecutive characters of `l` are
both hyphens. -/
def noDoubleHyphen : List Char → Bool
  | [] => true
  | [_] => true
  | a :: b :: rest => !(a == '-' && b == '-') && noDoubleHyphen (b :: rest)

/-! ## Data model (`src/schemas.py`) and the store

The Mongo collections `category` and `article` are modelled as lists of
persisted documents; `find_one({"slug": s})` is an `any` scan, and
`create_document` appends.  `datetime` values are opaque timestamps (`Nat`);
a Python `datetime` object is always truthy, so only `None` counts as an
absent `published_at`. -/

/-- Creation payload for `POST /api/categories` (`CategoryIn` = `Category`
from `src/schemas.py`). -/
structure CategoryIn where
  name : List Char
  slug : Option (List Char)
  description : Option (List Char)
  is_active : Bool
deriving DecidableEq

/-- A persisted category document: the payload dict after the handler has
filled in the `slug` key. -/
structure CategoryDoc where
  name : List Char
  slug : List Char
  description : Option (List Char)
  is_active : Bool
deriving DecidableEq

/-- Creation payload for `POST /api/articles` (`ArticleIn` = `Article` from
`src/schemas.py`). -/
structure ArticleIn where
  title : List Char
  slug : Option (List Char)
  summary : Option (List Char)
  content : List Char
  author : List Char
  category : Option (List Char)
  image_url : Option (List Char)
  tags : List (List Char)
  published_at : Option Nat
  is_published : Bool
deriving DecidableEq

/-- A persisted article document: the payload dict after the handler has
filled in the `slug` and `published_at` keys. -/
structure ArticleDoc where
  title : List Char
  slug : List Char
  summary : Option (List Char)
  content : List Char
  author : List Char
  category : Option (List Char)
  image_url : Option (List Char)
  tags : List (List Char)
  published_at : Nat
  is_published : Bool
deriving DecidableEq

/-- The document store: the two independent collections. -/
structure Store where
  categories : List CategoryDoc
  articles : List ArticleDoc
deriving DecidableEq

/-- Python truthiness of `data.get("slug")`: `None` and the empty string are
falsy, so `if not data.get("slug")` fires exactly on these. -/
def slugAbsent : Option (List Char) → Bool
  | none => true
  | some s => s.isEmpty

/-- The candidate slug of a category creation:
`if not data.get("slug"): data["slug"] = slugify(data["name"])`. -/
def categoryCandidate (payload : CategoryIn) : List Char :=
  if slugAbsent payload.slug then slugify payload.name else payload.slug.getD []

/-- The candidate slug of an article creation:
`if not data.get("slug"): data["slug"] = slugify(data["title"])[:120]`. -/
def articleCandidate (payload : ArticleIn) : List Char :=
  if slugAbsent payload.slug then (slugify payload.title).take 120
  else payload.slug.getD []

/-- Detail string of the category conflict error (HTTP 400). -/
def categoryConflictDetail : List Char :=
  "Category with this slug already exists".data

/-- Detail string of the article conflict error (HTTP 400). -/
def articleConflictDetail : List Char :=
  "Article with this slug already exists".data

/-- `POST /api/categories` (`create_category` in `src/main.py`): resolve the
candidate slug, check uniqueness with `find_one({"slug": ...})`, and either
raise 400 (store unchanged) or insert the document. -/
def create_category (store : Store) (payload : CategoryIn) :
    Except (List Char) CategoryDoc × Store :=
  let slug := categoryCandidate payload
  if store.categories.any (fun d => decide (d.slug = slug)) then
    (Except.error categoryConflictDetail, store)
  else
    let doc : CategoryDoc :=
      { name := payload.name, slug := slug,
        description := payload.description, is_active := payload.is_active }
    (Except.ok doc, { store with categories := store.categories ++ [doc] })

/-- `POST /api/articles` (`create_article` in `src/main.py`): resolve the
candidate slug, default `published_at` to the current time `now` when the
payload lacks it, check uniqueness, and either raise 400 (store unchanged)
or insert the document. -/
def create_article (store : Store) (payload : ArticleIn) (now : Nat) :
    Except (List Char) ArticleDoc × Store :=
  let slug := articleCandidate payload
  let publishedAt := match payload.published_at with
    | none => now
    | some t => t
  if store.articles.any (fun d => decide (d.slug = slug)) then
    (Except.error articleConflictDetail, store)
  else
    let doc : ArticleDoc :=
      { title := payload.title, slug := slug, summary := payload.summary,
        content := payload.content, author := payload.author,
        category := payload.category, image_url := payload.image_url,
        tags := payload.tags, published_at := publishedAt,
        is_published := payload.is_published }
    (Except.ok doc, { store with articles := store.articles ++ [doc] })

/-! ## Seed data (`seed_sample` in `src/main.py`) -/

/-- The five seeded categories, as `(name, slug)` pairs. -/
def seedCategoryList : List (List Char × List Char) :=
  [("World".data, "world".data), ("Business".data, "business".data),
   ("Technology".data, "technology".data), ("Sports".data, "sports".data),
   ("Entertainment".data, "entertainment".data)]

/-- A sample article of the seed fixture (no `slug`, `published_at` or
`is_published` key yet). -/
structure SeedArticle where
  title : List Char
  summary : List Char
  content : List Char
  author : List Char
  category : List Char
  image_url : List Char
  tags : List (List Char)

/-- The three seeded sample articles. -/
def seedSampleList : List SeedArticle :=
  [{ title := "Tech giants unveil next-gen AI chips".data,
     summary := "A new wave of processors promises faster, greener AI.".data,
     content := "Major semiconductor companies announced...".data,
     author := "News Desk".data,
     category := "technology".data,
     image_url := "https://images.unsplash.com/photo-1550751827-4bd374c3f58b?q=80&w=1200&auto=format&fit=crop".data,
     tags := ["ai".data, "chips".data, "semiconductor".data] },
   { title := "Markets rally as inflation cools".data,
     summary := "Global markets see gains after latest CPI data.".data,
     content := "Stocks across major indices rose today...".data,
     author := "Finance Team".data,
     category := "business".data,
     image_url := "https://images.unsplash.com/photo-1559526324-593bc073d938?q=80&w=1200&auto=format&fit=crop".data,
     tags := ["markets".data, "inflation".data] },
   { title := "Historic win in championship final".data,
     summary := "An underdog story captures fans worldwide.".data,
     content := "In a thrilling finale, the underdogs clinched...".data,
     author := "Sports Desk".data,
     category := "sports".data,
     image_url := "https://images.unsplash.com/photo-1502877338535-766e1452684a?q=80&w=1200&auto=format&fit=crop".data,
     tags := ["final".data, "championship".data] }]

/-- One iteration of the category seed loop:
`if not db["category"].find_one({"slug": c["slug"]}): create_document("category", {**c, "is_active": True})`. -/
def seedCatStep (docs : List CategoryDoc) (c : List Char × List Char) :
    List CategoryDoc :=
  if docs.any (fun d => decide (d.slug = c.2)) then docs
  else docs ++ [{ name := c.1, slug := c.2, description := none,
                  is_active := true }]

/-- One iteration of the article seed loop: derive the slug with
`slugify(s["title"])[:120]`, skip when taken, otherwise insert with
`is_published: True` and `published_at: now`, incrementing `created_count`. -/
def seedArtStep (now : Nat) (st : List ArticleDoc × Nat) (s : SeedArticle) :
    List ArticleDoc × Nat :=
  let slug := (slugify s.title).take 120
  if st.1.any (fun d => decide (d.slug = slug)) then st
  else
    (st.1 ++ [{ title := s.title, slug := slug, summary := some s.summary,
                content := s.content, author := s.author,
                category := some s.category, image_url := some s.image_url,
                tags := s.tags, published_at := now, is_published := true }],
     st.2 + 1)

/-- `POST /api/seed` (`seed_sample` in `src/main.py`): insert each missing
seed category, then each missing sample article, and return the new store
with the number of created articles (`created_count`). -/
def seed_sample (store : Store) (now : Nat) : Store × Nat :=
  let categories := seedCategoryList.foldl seedCatStep store.categories
  let arts := seedSampleList.foldl (seedArtStep now) (store.articles, 0)
  ({ categories := categories, articles := arts.1 }, arts.2)

/-! ## Concrete fixtures used to instantiate the theorems -/

/-- The empty store. -/
def emptyStore : Store := { categories := [], articles := [] }

/-- A store holding the category `technology` and the article `hello`. -/
def techStore : Store :=
  { categories := [{ name := "Technology".data, slug := "technology".data,
                     description := none, is_active := true }],
    articles := [{ title := "Hello".data, slug := "hello".data,
                   summary := none, content := "c".data, author := "a".data,
                   category := none, image_url := none, tags := [],
                   published_at := 0, is_published := true }] }

/-- Category payload whose name normalizes to `technology`. -/
def techPayload : CategoryIn :=
  { name := "Technology".data, slug := none, description := none,
    is_active := true }

/-- Article payload whose title normalizes to `hello`. -/
def helloPayload : ArticleIn :=
  { title := "Hello!".data, slug := none, summary := none,
    content := "c".data, author := "a".data, category := none,
    image_url := none, tags := [], published_at := none,
    is_published := true }

/-- Category payload with the explicit slug `world`. -/
def worldCategoryPayload : CategoryIn :=
  { name := "World News".data, slug := some "world".data,
    description := none, is_active := true }

/-- Article payload with the explicit slug `world-report`. -/
def worldArticlePayload : ArticleIn :=
  { title := "World Report".data, slug := some "world-report".data,
    summary := none, content := "c".data, author := "a".data,
    category := none, image_url := none, tags := [], published_at := none,
    is_published := true }

/-- A 140-character title (119 `a`s, a space, 20 `b`s) whose normalization
is longer than 120 characters and has its 120th character at a hyphen. -/
def longTitle : List Char :=
  List.replicate 119 'a' ++ ' ' :: List.replicate 20 'b'

/-- Article payload with `longTitle` and no explicit slug. -/
def longTitlePayload : ArticleIn :=
  { title := longTitle, slug := none, summary := none, content := "c".data,
    author := "a".data, category := none, image_url := none, tags := [],
    published_at := none, is_published := true }

/-- Article payload carrying no `published_at`. -/
def noPubPayload : ArticleIn :=
  { title := "Hi".data, slug := some "hi".data, summary := none,
    content := "c".data, author := "a".data, category := none,
    image_url := none, tags := [], published_at := none,
    is_published := true }

/-- Article payload carrying `published_at = 7`. -/
def somePubPayload : ArticleIn :=
  { title := "Hi".data, slug := some "hi".data, summary := none,
    content := "c".data, author := "a".data, category := none,
    image_url := none, tags := [], published_at := some 7,
    is_published := true }

/-- The document persisted for `noPubPayload` at time 42. -/
def noPubDoc : ArticleDoc :=
  { title := "Hi".data, slug := "hi".data, summary := none,
    content := "c".data, author := "a".data, category := none,
    image_url := none, tags := [], published_at := 42,
    is_published := true }

/-- The document persisted for `somePubPayload` (at any time). -/
def somePubDoc : ArticleDoc :=
  { title := "Hi".data, slug := "hi".data, summary := none,
    content := "c".data, author := "a".data, category := none,
    image_url := none, tags := [], published_at := 7,
    is_published := true }

/-! ## Character-class facts -/

theorem eq_hyphen_of_beq {c : Char} (h : (c == '-') = true) : c = '-' := by
  simpa using h

theorem slugChar_keepChar {c : Char} (h : slugChar c = true) :
    keepChar c = true := by
  simp only [slugChar, Bool.or_eq_true] at h
  simp only [keepChar, Bool.or_eq_true]
  tauto

theorem slugChar_not_space {c : Char} (h : slugChar c = true) :
    isPySpace c = false := by
  simp only [slugChar, isAsciiLower, isAsciiDigit, Bool.or_eq_true,
    decide_eq_true_eq, beq_iff_eq] at h
  have hn : (97 ≤ c.toNat ∧ c.toNat ≤ 122) ∨ (48 ≤ c.toNat ∧ c.toNat ≤ 57) ∨
      c.toNat = 45 := by
    rcases h with (h | h) | h
    · exact Or.inl h
    · exact Or.inr (Or.inl h)
    · subst h; exact Or.inr (Or.inr rfl)
  simp only [isPySpace, decide_eq_false_iff_not]
  omega

theorem slugChar_of_keep_not_soh {c : Char} (hk : keepChar c = true)
    (hs : isSpaceOrHyphen c = false) : slugChar c = true := by
  simp only [keepChar, Bool.or_eq_true] at hk
  simp only [isSpaceOrHyphen, Bool.or_eq_false_iff] at hs
  simp only [slugChar, Bool.or_eq_true]
  rcases hk with ((h | h) | h) | h
  · exact Or.inl (Or.inl h)
  · exact Or.inl (Or.inr h)
  · rw [hs.1] at h; exact absurd h (by simp)
  · rw [hs.2] at h; exact absurd h (by simp)

theorem soh_hyphen : isSpaceOrHyphen '-' = true := by
  simp [isSpaceOrHyphen]

theorem not_hyphen_of_soh_false {c : Char} (h : isSpaceOrHyphen c = false) :
    c ≠ '-' := by
  intro hc; subst hc; rw [soh_hyphen] at h; exact absurd h (by simp)

/-! ## `noDoubleHyphen` structure lemmas -/

theorem noDoubleHyphen_tail {a : Char} {l : List Char}
    (h : noDoubleHyphen (a :: l) = true) : noDoubleHyphen l = true := by
  cases l with
  | nil => rfl
  | cons b r => simp only [noDoubleHyphen, Bool.and_eq_true] at h; exact h.2

theorem noDoubleHyphen_cons {a : Char} {l : List Char}
    (hl : noDoubleHyphen l = true)
    (hp : ∀ b, l.head? = some b → ¬(a = '-' ∧ b = '-')) :
    noDoubleHyphen (a :: l) = true := by
  cases l with
  | nil => rfl
  | cons b r =>
    simp only [noDoubleHyphen, Bool.and_eq_true]
    refine ⟨?_, hl⟩
    have := hp b rfl
    simp only [Bool.not_eq_true', Bool.and_eq_false_iff]
    by_cases hab : a = '-'
    · right
      have hb : b ≠ '-' := fun hb => this ⟨hab, hb⟩
      simpa using hb
    · left
      simpa using hab

theorem noDoubleHyphen_pair {a b : Char} {l : List Char}
    (h : noDoubleHyphen (a :: l) = true) (hb : l.head? = some b) :
    ¬(a = '-' ∧ b = '-') := by
  cases l with
  | nil => simp at hb
  | cons c r =>
    simp only [List.head?_cons, Option.some_inj] at hb
    subst hb
    simp only [noDoubleHyphen, Bool.and_eq_true, Bool.not_eq_true',
      Bool.and_eq_false_iff] at h
    rintro ⟨ha, hbb⟩
    rcases h.1 with hx | hx
    · rw [ha] at hx; exact absurd hx (by simp)
    · rw [hbb] at hx; exact absurd hx (by simp)

/-! ## `dropWhile` lemmas -/

theorem head_dropWhile_false {p : Char → Bool} {l : List Char} {a : Char}
    (h : (l.dropWhile p).head? = some a) : p a = false := by
  induction l with
  | nil => simp [List.dropWhile] at h
  | cons c rest ih =>
    rw [List.dropWhile_cons] at h
    split at h
    · exact ih h
    · rename_i hc
      simp only [List.head?_cons, Option.some_inj] at h
      subst h
      simpa using hc

theorem noDoubleHyphen_dropWhile {p : Char → Bool} {l : List Char}
    (h : noDoubleHyphen l = true) :
    noDoubleHyphen (l.dropWhile p) = true := by
  induction l with
  | nil => rfl
  | cons c rest ih =>
    rw [List.dropWhile_cons]
    split
    · exact ih (noDoubleHyphen_tail h)
    · exact h

theorem dropWhile_id_of_head {p : Char → Bool} {l : List Char}
    (h : ∀ a, l.head? = some a → p a = false) : l.dropWhile p = l := by
  cases l with
  | nil => rfl
  | cons c rest =>
    rw [List.dropWhile_cons, if_neg]
    simp [h c rfl]

/-! ## `dropTrailing` lemmas -/

theorem dropTrailing_cons (p : Char → Bool) (c : Char) (rest : List Char) :
    dropTrailing p (c :: rest) =
      if (dropTrailing p rest).isEmpty then (if p c then [] else [c])
      else c :: dropTrailing p rest := rfl

theorem mem_of_mem_dropTrailing {p : Char → Bool} {l : List Char} {a : Char}
    (h : a ∈ dropTrailing p l) : a ∈ l := by
  induction l with
  | nil => simp [dropTrailing] at h
  | cons c rest ih =>
    rw [dropTrailing_cons] at h
    by_cases hd : (dropTrailing p rest).isEmpty = true
    · rw [if_pos hd] at h
      by_cases hp : p c = true
      · rw [if_pos hp] at h; simp at h
      · rw [if_neg hp] at h
        simp only [List.mem_singleton] at h
        subst h; exact List.mem_cons_self a rest
    · rw [if_neg hd] at h
      rcases List.mem_cons.mp h with h | h
      · subst h; exact List.mem_cons_self a rest
      · exact List.mem_cons_of_mem c (ih h)

theorem getLast_dropTrailing_false {p : Char → Bool} {l : List Char}
    {a : Char} (h : (dropTrailing p l).getLast? = some a) : p a = false := by
  induction l with
  | nil => simp [dropTrailing] at h
  | cons c rest ih =>
    rw [dropTrailing_cons] at h
    by_cases hd : (dropTrailing p rest).isEmpty = true
    · rw [if_pos hd] at h
      by_cases hp : p c = true
      · rw [if_pos hp] at h; simp at h
      · rw [if_neg hp] at h
        simp only [List.getLast?_singleton, Option.some_inj] at h
        subst h
        simpa using hp
    · rw [if_neg hd] at h
      cases he : dropTrailing p rest with
      | nil => rw [he] at hd; simp at hd
      | cons d r =>
        rw [he, List.getLast?_cons_cons] at h
        exact ih (by rw [he]; exact h)

theorem head_dropTrailing {p : Char → Bool} {l : List Char} {a : Char}
    (h : (dropTrailing p l).head? = some a) : l.head? = some a := by
  cases l with
  | nil => simp [dropTrailing] at h
  | cons c rest =>
    rw [dropTrailing_cons] at h
    by_cases hd : (dropTrailing p rest).isEmpty = true
    · rw [if_pos hd] at h
      by_cases hp : p c = true
      · rw [if_pos hp] at h; simp at h
      · rw [if_neg hp] at h
        simp only [List.head?_cons, Option.some_inj] at h
        subst h; rfl
    · rw [if_neg hd] at h
      simp only [List.head?_cons, Option.some_inj] at h
      subst h; rfl

theorem noDoubleHyphen_dropTrailing {p : Char → Bool} {l : List Char}
    (h : noDoubleHyphen l = true) :
    noDoubleHyphen (dropTrailing p l) = true := by
  induction l with
  | nil => rfl
  | cons c rest ih =>
    rw [dropTrailing_cons]
    by_cases hd : (dropTrailing p rest).isEmpty = true
    · rw [if_pos hd]
      by_cases hp : p c = true
      · rw [if_pos hp]; rfl
      · rw [if_neg hp]; rfl
    · rw [if_neg hd]
      refine noDoubleHyphen_cons (ih (noDoubleHyphen_tail h)) ?_
      intro b hb
      exact noDoubleHyphen_pair h (head_dropTrailing hb)

theorem dropTrailing_id_of_getLast {p : Char → Bool} {l : List Char}
    (h : ∀ a, l.getLast? = some a → p a = false) : dropTrailing p l = l := by
  induction l with
  | nil => rfl
  | cons c rest ih =>
    cases rest with
    | nil =>
      have hc := h c rfl
      simp [dropTrailing_cons, dropTrailing, hc]
    | cons d r =>
      have hrest : dropTrailing p (d :: r) = d :: r :=
        ih (fun a ha => h a (by rw [List.getLast?_cons_cons]; exact ha))
      rw [dropTrailing_cons, hrest]
      simp

/-! ## `collapseAux` lemmas -/

theorem collapseAux_all_slugChar {l : List Char}
    (hl : ∀ c ∈ l, keepChar c = true) :
    ∀ flag, ∀ c ∈ collapseAux flag l, slugChar c = true := by
  induction l with
  | nil => intro flag c hc; simp [collapseAux] at hc
  | cons a rest ih =>
    intro flag c hc
    have hrest : ∀ c ∈ rest, keepChar c = true :=
      fun c hc => hl c (List.mem_cons_of_mem a hc)
    simp only [collapseAux] at hc
    by_cases hs : isSpaceOrHyphen a = true
    · rw [if_pos hs] at hc
      cases flag with
      | true => exact ih hrest true c hc
      | false =>
        rcases List.mem_cons.mp hc with h | h
        · subst h; rfl
        · exact ih hrest true c h
    · rw [if_neg hs] at hc
      rcases List.mem_cons.mp hc with h | h
      · subst h
        exact slugChar_of_keep_not_soh (hl c (List.mem_cons_self c rest))
          (Bool.not_eq_true _ ▸ hs)
      · exact ih hrest false c h

theorem collapseAux_noDouble (l : List Char) :
    (∀ flag, noDoubleHyphen (collapseAux flag l) = true) ∧
    (collapseAux true l).head? ≠ some '-' := by
  induction l with
  | nil => exact ⟨fun _ => rfl, by simp [collapseAux]⟩
  | cons a rest ih =>
    by_cases hs : isSpaceOrHyphen a = true
    · constructor
      · intro flag
        cases flag with
        | true => simpa only [collapseAux, if_pos hs] using ih.1 true
        | false =>
          simp only [collapseAux, if_pos hs]
          refine noDoubleHyphen_cons (ih.1 true) ?_
          intro b hb
          rintro ⟨-, hb2⟩
          exact ih.2 (hb2 ▸ hb)
      · simp only [collapseAux, if_pos hs]
        exact ih.2
    · constructor
      · intro flag
        simp only [collapseAux, if_neg hs]
        refine noDoubleHyphen_cons (ih.1 false) ?_
        rintro b - ⟨ha, -⟩
        exact not_hyphen_of_soh_false (Bool.not_eq_true _ ▸ hs) ha
      · simp only [collapseAux, if_neg hs, List.head?_cons]
        intro hc
        exact not_hyphen_of_soh_false (Bool.not_eq_true _ ▸ hs)
          (Option.some_inj.mp hc)

theorem collapseAux_id {l : List Char}
    (hs : ∀ c ∈ l, isPySpace c = false) (hd : noDoubleHyphen l = true) :
    collapseAux false l = l ∧
    (l.head? ≠ some '-' → collapseAux true l = l) := by
  induction l with
  | nil => exact ⟨rfl, fun _ => rfl⟩
  | cons a rest ih =>
    have hsr : ∀ c ∈ rest, isPySpace c = false :=
      fun c hc => hs c (List.mem_cons_of_mem a hc)
    have hdr : noDoubleHyphen rest = true := noDoubleHyphen_tail hd
    have iha := ih hsr hdr
    have hsa : isPySpace a = false := hs a (List.mem_cons_self a rest)
    by_cases hh : a = '-'
    · subst hh
      have hsoh : isSpaceOrHyphen '-' = true := soh_hyphen
      constructor
      · simp only [collapseAux, if_pos hsoh]
        have htail : collapseAux true rest = rest := by
          refine iha.2 ?_
          intro hr
          exact noDoubleHyphen_pair hd hr ⟨rfl, rfl⟩
        rw [htail]
        simp
      · intro hne
        exact absurd rfl hne
    · have hsoh : isSpaceOrHyphen a = false := by
        simp only [isSpaceOrHyphen, Bool.or_eq_false_iff]
        exact ⟨hsa, by simpa using hh⟩
      constructor
      · simp only [collapseAux, if_neg (by simp [hsoh] : ¬ isSpaceOrHyphen a = true)]
        rw [iha.1]
      · intro _
        simp only [collapseAux, if_neg (by simp [hsoh] : ¬ isSpaceOrHyphen a = true)]
        rw [iha.1]

/-! ## `pyStrip` lemmas -/

theorem mem_of_mem_pyStrip {p : Char → Bool} {l : List Char} {a : Char}
    (h : a ∈ pyStrip p l) : a ∈ l :=
  (List.dropWhile_sublist p).subset (mem_of_mem_dropTrailing h)

theorem pyStrip_head_false {p : Char → Bool} {l : List Char} {a : Char}
    (h : (pyStrip p l).head? = some a) : p a = false :=
  head_dropWhile_false (head_dropTrailing h)

theorem pyStrip_getLast_false {p : Char → Bool} {l : List Char} {a : Char}
    (h : (pyStrip p l).getLast? = some a) : p a = false :=
  getLast_dropTrailing_false h

theorem pyStrip_noDouble {p : Char → Bool} {l : List Char}
    (h : noDoubleHyphen l = true) : noDoubleHyphen (pyStrip p l) = true :=
  noDoubleHyphen_dropTrailing (noDoubleHyphen_dropWhile h)

theorem pyStrip_id {p : Char → Bool} {l : List Char}
    (h1 : ∀ a, l.head? = some a → p a = false)
    (h2 : ∀ a, l.getLast? = some a → p a = false) : pyStrip p l = l := by
  unfold pyStrip
  rw [dropWhile_id_of_head h1]
  exact dropTrailing_id_of_getLast h2

/-! ## The `slugify` output invariant -/

theorem slugify_mem_slugChar {s : List Char} {c : Char}
    (h : c ∈ slugify s) : slugChar c = true := by
  have h2 : c ∈ collapseAux false
      ((pyStrip isPySpace (s.map pyLower)).filter keepChar) :=
    mem_of_mem_pyStrip h
  exact collapseAux_all_slugChar
    (fun d hd => List.of_mem_filter hd) false c h2

theorem slugify_noDouble (s : List Char) :
    noDoubleHyphen (slugify s) = true :=
  pyStrip_noDouble
    ((collapseAux_noDouble
      ((pyStrip isPySpace (s.map pyLower)).filter keepChar)).1 false)

theorem slugify_head_ne (s : List Char) : (slugify s).head? ≠ some '-' := by
  intro h
  have := pyStrip_head_false h
  simp at this

theorem slugify_getLast_ne (s : List Char) :
    (slugify s).getLast? ≠ some '-' := by
  intro h
  have := pyStrip_getLast_false h
  simp at this

/-! ## `slugify` fixes its own output -/

theorem pyLower_fixed {c : Char} (h : slugChar c = true) : pyLower c = c := by
  simp only [slugChar, isAsciiLower, isAsciiDigit, Bool.or_eq_true,
    decide_eq_true_eq, beq_iff_eq] at h
  have hn : (97 ≤ c.toNat ∧ c.toNat ≤ 122) ∨ (48 ≤ c.toNat ∧ c.toNat ≤ 57) ∨
      c.toNat = 45 := by
    rcases h with (h | h) | h
    · exact Or.inl h
    · exact Or.inr (Or.inl h)
    · subst h; exact Or.inr (Or.inr rfl)
  unfold pyLower
  rw [if_neg]
  omega

theorem map_pyLower_id {l : List Char} (h : ∀ c ∈ l, slugChar c = true) :
    l.map pyLower = l := by
  induction l with
  | nil => rfl
  | cons c rest ih =>
    rw [List.map_cons, pyLower_fixed (h c (List.mem_cons_self c rest)),
      ih (fun d hd => h d (List.mem_cons_of_mem c hd))]

theorem mem_of_head_eq {l : List Char} {a : Char}
    (h : l.head? = some a) : a ∈ l := by
  cases l with
  | nil => simp at h
  | cons b r =>
    simp only [List.head?_cons, Option.some_inj] at h
    subst h; exact List.mem_cons_self _ _

theorem mem_of_getLast_eq {l : List Char} {a : Char}
    (h : l.getLast? = some a) : a ∈ l := by
  induction l with
  | nil => simp at h
  | cons c rest ih =>
    cases rest with
    | nil =>
      simp only [List.getLast?_singleton, Option.some_inj] at h
      subst h; exact List.mem_cons_self _ _
    | cons d r =>
      rw [List.getLast?_cons_cons] at h
      exact List.mem_cons_of_mem c (ih h)

theorem slugify_fixed {y : List Char}
    (h1 : ∀ c ∈ y, slugChar c = true)
    (h2 : noDoubleHyphen y = true)
    (h3 : y.head? ≠ some '-')
    (h4 : y.getLast? ≠ some '-') : slugify y = y := by
  have hnospace : ∀ c ∈ y, isPySpace c = false :=
    fun c hc => slugChar_not_space (h1 c hc)
  have e1 : y.map pyLower = y := map_pyLower_id h1
  have e2 : pyStrip isPySpace y = y := by
    refine pyStrip_id ?_ ?_
    · intro a ha
      exact hnospace a (mem_of_head_eq ha)
    · intro a ha
      exact hnospace a (mem_of_getLast_eq ha)
  have e3 : y.filter keepChar = y :=
    List.filter_eq_self.mpr (fun a ha => slugChar_keepChar (h1 a ha))
  have e4 : collapseAux false y = y := (collapseAux_id hnospace h2).1
  have e5 : pyStrip (· == '-') y = y := by
    refine pyStrip_id ?_ ?_
    · intro a ha
      have : a ≠ '-' := fun hc => h3 (hc ▸ ha)
      simpa using this
    · intro a ha
      have : a ≠ '-' := fun hc => h4 (hc ▸ ha)
      simpa using this
  show pyStrip (· == '-')
    (collapseAux false ((pyStrip isPySpace (y.map pyLower)).filter keepChar)) = y
  rw [e1, e2, e3, e4, e5]

/-! ## Claim theorems about `slugify` -/

/-- C1: for every input string, the output of `normalize` (`slugify`)
contains only lowercase ASCII letters, digits, and hyphens, with no leading
or trailing hyphen and no two consecutive hyphens. -/
theorem C1_normalize_output_shape (s : List Char) :
    (∀ c ∈ slugify s, slugChar c = true) ∧
    (slugify s).head? ≠ some '-' ∧
    (slugify s).getLast? ≠ some '-' ∧
    noDoubleHyphen (slugify s) = true :=
  ⟨fun _ hc => slugify_mem_slugChar hc, slugify_head_ne s,
   slugify_getLast_ne s, slugify_noDouble s⟩

/-- C1 witness: the output invariant instantiated at a concrete input, with
the membership hypothesis discharged on each output character. -/
theorem C1_witness :
    (∀ c ∈ slugify "  Hello---World  ".data, slugChar c = true) ∧
    (slugify "  Hello---World  ".data).head? ≠ some '-' ∧
    (slugify "  Hello---World  ".data).getLast? ≠ some '-' ∧
    noDoubleHyphen (slugify "  Hello---World  ".data) = true :=
  C1_normalize_output_shape "  Hello---World  ".data

/-- C2: `normalize` (`slugify`) is idempotent: for every input string `x`,
`slugify (slugify x) = slugify x`. -/
theorem C2_normalize_idempotent (x : List Char) :
    slugify (slugify x) = slugify x :=
  slugify_fixed (fun _ hc => slugify_mem_slugChar hc) (slugify_noDouble x)
    (slugify_head_ne x) (slugify_getLast_ne x)

/-- C6: the two spec examples of `normalize`:
`"Tech Giants Unveil Next-Gen AI Chips!!"` maps to
`"tech-giants-unveil-next-gen-ai-chips"` and `"  Hello---World  "` maps to
`"hello-world"`. -/
theorem C6_normalize_examples :
    slugifyStr "Tech Giants Unveil Next-Gen AI Chips!!" =
      "tech-giants-unveil-next-gen-ai-chips" ∧
    slugifyStr "  Hello---World  " = "hello-world" :=
  ⟨rfl, rfl⟩

/-- C8: there is an input string (nonempty, containing no character that is
a lowercase letter, digit, whitespace or hyphen after lowercasing) on which
`normalize` returns the empty string. -/
theorem C8_normalize_can_be_empty :
    ∃ s : List Char, s ≠ [] ∧ (∀ c ∈ s, keepChar (pyLower c) = false) ∧
      slugify s = [] :=
  ⟨"!?!".data, by decide, by decide, rfl⟩

/-! ## Candidate-slug lemmas -/

theorem categoryCandidate_explicit {pc : CategoryIn} {s : List Char}
    (h : pc.slug = some s) (hne : s ≠ []) : categoryCandidate pc = s := by
  have he : s.isEmpty = false := by
    cases s with
    | nil => exact absurd rfl hne
    | cons a r => rfl
  unfold categoryCandidate
  rw [h]
  simp [slugAbsent, he]

theorem articleCandidate_explicit {pa : ArticleIn} {s : List Char}
    (h : pa.slug = some s) (hne : s ≠ []) : articleCandidate pa = s := by
  have he : s.isEmpty = false := by
    cases s with
    | nil => exact absurd rfl hne
    | cons a r => rfl
  unfold articleCandidate
  rw [h]
  simp [slugAbsent, he]

/-- C9: an explicit empty slug in a creation payload is treated as absent;
the candidate slug falls back to the normalized display field (`name` for
categories; `title` truncated to 120 characters for articles). -/
theorem C9_empty_slug_treated_absent (pc : CategoryIn) (pa : ArticleIn)
    (hc : pc.slug = some []) (ha : pa.slug = some []) :
    categoryCandidate pc = slugify pc.name ∧
    articleCandidate pa = (slugify pa.title).take 120 := by
  constructor
  · unfold categoryCandidate
    rw [hc]
    simp [slugAbsent]
  · unfold articleCandidate
    rw [ha]
    simp [slugAbsent]

/-- C9 witness: instantiation at concrete payloads with `slug = some ""`. -/
theorem C9_witness :
    categoryCandidate
        { name := "Technology".data, slug := some [], description := none,
          is_active := true } = slugify "Technology".data ∧
    articleCandidate
        { title := "Hi".data, slug := some [], summary := none,
          content := "c".data, author := "a".data, category := none,
          image_url := none, tags := [], published_at := none,
          is_published := true } = (slugify "Hi".data).take 120 :=
  C9_empty_slug_treated_absent _ _ rfl rfl

/-- C3: a creation attempt whose candidate slug equals the slug of an
existing record of the same collection returns the Conflict error with the
store unchanged; and, in general, every failing creation attempt leaves the
store unchanged. -/
theorem C3_conflict_leaves_store_unchanged (store : Store) (pc : CategoryIn)
    (pa : ArticleIn) (now : Nat) :
    ((∃ d ∈ store.categories, d.slug = categoryCandidate pc) →
      create_category store pc =
        (Except.error categoryConflictDetail, store)) ∧
    ((∃ d ∈ store.articles, d.slug = articleCandidate pa) →
      create_article store pa now =
        (Except.error articleConflictDetail, store)) ∧
    (∀ e, (create_category store pc).1 = Except.error e →
      (create_category store pc).2 = store) ∧
    (∀ e, (create_article store pa now).1 = Except.error e →
      (create_article store pa now).2 = store) := by
  refine ⟨?_, ?_, ?_, ?_⟩
  · intro h
    have hcond : store.categories.any
        (fun d => decide (d.slug = categoryCandidate pc)) = true := by
      rw [List.any_eq_true]
      obtain ⟨d, hd, he⟩ := h
      exact ⟨d, hd, by simpa using he⟩
    unfold create_category
    rw [if_pos hcond]
  · intro h
    have hcond : store.articles.any
        (fun d => decide (d.slug = articleCandidate pa)) = true := by
      rw [List.any_eq_true]
      obtain ⟨d, hd, he⟩ := h
      exact ⟨d, hd, by simpa using he⟩
    unfold create_article
    rw [if_pos hcond]
  · intro e he
    unfold create_category at he ⊢
    by_cases hcond : store.categories.any
        (fun d => decide (d.slug = categoryCandidate pc)) = true
    · rw [if_pos hcond]
    · rw [if_neg hcond] at he
      simp at he
  · intro e he
    unfold create_article at he ⊢
    by_cases hcond : store.articles.any
        (fun d => decide (d.slug = articleCandidate pa)) = true
    · rw [if_pos hcond]
    · rw [if_neg hcond] at he
      simp at he

/-- C3 witness: creating `Technology` over an existing `technology`
category, and `Hello!` over an existing `hello` article, each yields the
conflict error and leaves the store unchanged. -/
theorem C3_witness :
    create_category techStore techPayload =
      (Except.error categoryConflictDetail, techStore) ∧
    create_article techStore helloPayload 0 =
      (Except.error articleConflictDetail, techStore) :=
  ⟨(C3_conflict_leaves_store_unchanged techStore techPayload helloPayload 0).1
      (by decide),
   (C3_conflict_leaves_store_unchanged techStore techPayload helloPayload 0).2.1
      (by decide)⟩

/-- C5: a creation attempt carrying an explicit non-empty slug that is not
present in the target collection succeeds, and the persisted record's slug
equals the supplied slug character for character (verbatim, not
renormalized). -/
theorem C5_explicit_slug_verbatim (store : Store) (pc : CategoryIn)
    (pa : ArticleIn) (now : Nat) (sc sa : List Char)
    (hc : pc.slug = some sc) (hcne : sc ≠ [])
    (hcfree : store.categories.any (fun d => decide (d.slug = sc)) = false)
    (ha : pa.slug = some sa) (hane : sa ≠ [])
    (hafree : store.articles.any (fun d => decide (d.slug = sa)) = false) :
    (∃ doc, create_category store pc =
        (Except.ok doc,
         { store with categories := store.categories ++ [doc] }) ∧
      doc.slug = sc) ∧
    (∃ doc, create_article store pa now =
        (Except.ok doc,
         { store with articles := store.articles ++ [doc] }) ∧
      doc.slug = sa) := by
  have hcc : categoryCandidate pc = sc := categoryCandidate_explicit hc hcne
  have hac : articleCandidate pa = sa := articleCandidate_explicit ha hane
  constructor
  · have heq : create_category store pc =
        (Except.ok { name := pc.name, slug := sc,
                     description := pc.description,
                     is_active := pc.is_active },
         { store with categories := store.categories ++
             [{ name := pc.name, slug := sc,
                description := pc.description,
                is_active := pc.is_active }] }) := by
      simp only [create_category]
      rw [hcc, if_neg (by simp [hcfree])]
    exact ⟨_, heq, rfl⟩
  · have heq : create_article store pa now =
        (Except.ok { title := pa.title, slug := sa, summary := pa.summary,
                     content := pa.content, author := pa.author,
                     category := pa.category, image_url := pa.image_url,
                     tags := pa.tags,
                     published_at := match pa.published_at with
                       | none => now
                       | some t => t,
                     is_published := pa.is_published },
         { store with articles := store.articles ++
             [{ title := pa.title, slug := sa, summary := pa.summary,
                content := pa.content, author := pa.author,
                category := pa.category, image_url := pa.image_url,
                tags := pa.tags,
                published_at := match pa.published_at with
                  | none => now
                  | some t => t,
                is_published := pa.is_published }] }) := by
      simp only [create_article]
      rw [hac, if_neg (by simp [hafree])]
    exact ⟨_, heq, rfl⟩

/-- C5 witness: on the empty store, a category with explicit slug `world`
and an article with explicit slug `world-report` are persisted verbatim. -/
theorem C5_witness :
    (∃ doc, create_category emptyStore worldCategoryPayload =
        (Except.ok doc,
         { emptyStore with
             categories := emptyStore.categories ++ [doc] }) ∧
      doc.slug = "world".data) ∧
    (∃ doc, create_article emptyStore worldArticlePayload 5 =
        (Except.ok doc,
         { emptyStore with
             articles := emptyStore.articles ++ [doc] }) ∧
      doc.slug = "world-report".data) :=
  C5_explicit_slug_verbatim emptyStore worldCategoryPayload
    worldArticlePayload 5 "world".data "world-report".data rfl (by decide)
    rfl rfl (by decide) rfl

/-- C7: when the article payload lacks `published_at`, the persisted
article's `published_at` is the creation-time `now`; when the payload
supplies it, the value is persisted unchanged. -/
theorem C7_published_at_default (store : Store) (p : ArticleIn)
    (now t : Nat) :
    (p.published_at = none →
      ∀ doc, (create_article store p now).1 = Except.ok doc →
        doc.published_at = now) ∧
    (p.published_at = some t →
      ∀ doc, (create_article store p now).1 = Except.ok doc →
        doc.published_at = t) := by
  constructor
  · intro hn doc hdoc
    unfold create_article at hdoc
    by_cases hcond : store.articles.any
        (fun d => decide (d.slug = articleCandidate p)) = true
    · rw [if_pos hcond] at hdoc
      simp at hdoc
    · rw [if_neg hcond] at hdoc
      simp only [Except.ok.injEq] at hdoc
      rw [← hdoc]
      simp [hn]
  · intro ht doc hdoc
    unfold create_article at hdoc
    by_cases hcond : store.articles.any
        (fun d => decide (d.slug = articleCandidate p)) = true
    · rw [if_pos hcond] at hdoc
      simp at hdoc
    · rw [if_neg hcond] at hdoc
      simp only [Except.ok.injEq] at hdoc
      rw [← hdoc]
      simp [ht]

/-- C7 witness: the article without `published_at` created at time 42 is
persisted with `published_at = 42`; the article carrying
`published_at = 7` keeps 7 even when created at time 99. -/
theorem C7_witness :
    noPubDoc.published_at = 42 ∧ somePubDoc.published_at = 7 :=
  ⟨(C7_published_at_default emptyStore noPubPayload 42 0).1 rfl
      noPubDoc rfl,
   (C7_published_at_default emptyStore somePubPayload 99 7).2 rfl
      somePubDoc rfl⟩

set_option maxRecDepth 40000

/-- C4 counterexample: an article whose title is 119 `a`s, a space, and 20
`b`s normalizes to 140 characters; created without an explicit slug, the
persisted slug (the first 120 characters) ends with a hyphen, refuting the
claim that the persisted slug never has a trailing hyphen. -/
theorem C4_counterexample :
    longTitlePayload.slug = none ∧
    120 < (slugify longTitlePayload.title).length ∧
    Except.map (fun d => d.slug.getLast?)
      (create_article emptyStore longTitlePayload 0).1 =
      Except.ok (some '-') :=
  ⟨rfl, by decide, rfl⟩

/-- C4 (amended): for an article created without an explicit slug whose
title normalizes to more than 120 characters, the persisted slug is exactly
the first 120 characters of the normalized title (so its length is exactly
120); a trailing hyphen can remain when the cut lands at one. -/
theorem C4_truncated_slug (store : Store) (p : ArticleIn) (now : Nat)
    (habs : slugAbsent p.slug = true)
    (hlen : 120 < (slugify p.title).length)
    (hfree : store.articles.any
      (fun d => decide (d.slug = articleCandidate p)) = false) :
    ∃ doc, (create_article store p now).1 = Except.ok doc ∧
      (create_article store p now).2.articles = store.articles ++ [doc] ∧
      doc.slug = (slugify p.title).take 120 ∧
      doc.slug.length = 120 := by
  have hcand : articleCandidate p = (slugify p.title).take 120 := by
    unfold articleCandidate
    rw [if_pos habs]
  have heq : create_article store p now =
      (Except.ok { title := p.title, slug := articleCandidate p,
                   summary := p.summary, content := p.content,
                   author := p.author, category := p.category,
                   image_url := p.image_url, tags := p.tags,
                   published_at := match p.published_at with
                     | none => now
                     | some t => t,
                   is_published := p.is_published },
       { store with articles := store.articles ++
           [{ title := p.title, slug := articleCandidate p,
              summary := p.summary, content := p.content,
              author := p.author, category := p.category,
              image_url := p.image_url, tags := p.tags,
              published_at := match p.published_at with
                | none => now
                | some t => t,
              is_published := p.is_published }] }) := by
    simp only [create_article]
    rw [if_neg (by simp [hfree])]
  refine ⟨_, by rw [heq], by rw [heq], ?_, ?_⟩
  · exact hcand
  · show (articleCandidate p).length = 120
    rw [hcand, List.length_take]
    omega

/-- C4 witness: the amended statement instantiated at `longTitlePayload`
on the empty store. -/
theorem C4_witness :
    ∃ doc, (create_article emptyStore longTitlePayload 0).1 =
        Except.ok doc ∧
      (create_article emptyStore longTitlePayload 0).2.articles =
        emptyStore.articles ++ [doc] ∧
      doc.slug = (slugify longTitlePayload.title).take 120 ∧
      doc.slug.length = 120 :=
  C4_truncated_slug emptyStore longTitlePayload 0 rfl (by decide) rfl

/-! ## Seed-fold lemmas -/

theorem seedCatStep_mono {docs : List CategoryDoc} {p : CategoryDoc → Bool}
    (h : docs.any p = true) (c : List Char × List Char) :
    (seedCatStep docs c).any p = true := by
  unfold seedCatStep
  split
  · exact h
  · simp [List.any_append, h]

theorem seedCatFold_mono {docs : List CategoryDoc} {p : CategoryDoc → Bool}
    (h : docs.any p = true) (cs : List (List Char × List Char)) :
    (cs.foldl seedCatStep docs).any p = true := by
  induction cs generalizing docs with
  | nil => exact h
  | cons c rest ih => exact ih (seedCatStep_mono h c)

theorem seedCatFold_covers (cs : List (List Char × List Char))
    (docs : List CategoryDoc) :
    ∀ c ∈ cs, (cs.foldl seedCatStep docs).any
      (fun d => decide (d.slug = c.2)) = true := by
  induction cs generalizing docs with
  | nil => intro c hc; simp at hc
  | cons c0 rest ih =>
    intro c hc
    rcases List.mem_cons.mp hc with h | h
    · subst h
      rw [List.foldl_cons]
      refine seedCatFold_mono ?_ rest
      unfold seedCatStep
      split
      · rename_i hcond; exact hcond
      · simp [List.any_append]
    · rw [List.foldl_cons]
      exact ih (seedCatStep docs c0) c h

theorem seedCatFold_id (cs : List (List Char × List Char))
    (docs : List CategoryDoc)
    (h : ∀ c ∈ cs, docs.any (fun d => decide (d.slug = c.2)) = true) :
    cs.foldl seedCatStep docs = docs := by
  induction cs with
  | nil => rfl
  | cons c0 rest ih =>
    rw [List.foldl_cons]
    have hstep : seedCatStep docs c0 = docs := by
      unfold seedCatStep
      rw [if_pos (h c0 (List.mem_cons_self _ _))]
    rw [hstep]
    exact ih (fun c hc => h c (List.mem_cons_of_mem _ hc))

theorem seedArtStep_mono {st : List ArticleDoc × Nat} {p : ArticleDoc → Bool}
    (h : st.1.any p = true) (now : Nat) (s : SeedArticle) :
    ((seedArtStep now st s).1).any p = true := by
  simp only [seedArtStep]
  split
  · exact h
  · simp [List.any_append, h]

theorem seedArtFold_mono {st : List ArticleDoc × Nat} {p : ArticleDoc → Bool}
    (h : st.1.any p = true) (now : Nat) (ss : List SeedArticle) :
    ((ss.foldl (seedArtStep now) st).1).any p = true := by
  induction ss generalizing st with
  | nil => exact h
  | cons s rest ih => exact ih (seedArtStep_mono h now s)

theorem seedArtFold_covers (now : Nat) (ss : List SeedArticle)
    (st : List ArticleDoc × Nat) :
    ∀ s ∈ ss, ((ss.foldl (seedArtStep now) st).1).any
      (fun d => decide (d.slug = (slugify s.title).take 120)) = true := by
  induction ss generalizing st with
  | nil => intro s hs; simp at hs
  | cons s0 rest ih =>
    intro s hs
    rcases List.mem_cons.mp hs with h | h
    · subst h
      rw [List.foldl_cons]
      refine seedArtFold_mono ?_ now rest
      simp only [seedArtStep]
      split
      · rename_i hcond; exact hcond
      · simp [List.any_append]
    · rw [List.foldl_cons]
      exact ih (seedArtStep now st s0) s h

theorem seedArtFold_id (now : Nat) (ss : List SeedArticle)
    (st : List ArticleDoc × Nat)
    (h : ∀ s ∈ ss, st.1.any
      (fun d => decide (d.slug = (slugify s.title).take 120)) = true) :
    ss.foldl (seedArtStep now) st = st := by
  induction ss with
  | nil => rfl
  | cons s0 rest ih =>
    rw [List.foldl_cons]
    have hstep : seedArtStep now st s0 = st := by
      simp only [seedArtStep]
      rw [if_pos (h s0 (List.mem_cons_self _ _))]
    rw [hstep]
    exact ih (fun s hs => h s (List.mem_cons_of_mem _ hs))

/-- C10: `seed_sample` is idempotent on the store: a second run from any
state reached by a first run changes nothing and reports zero created
articles (and since it returns the same store, zero new category documents
as well). -/
theorem C10_seed_idempotent (store : Store) (now now2 : Nat) :
    seed_sample (seed_sample store now).1 now2 =
      ((seed_sample store now).1, 0) := by
  have hcats : seedCategoryList.foldl seedCatStep
      (seedCategoryList.foldl seedCatStep store.categories) =
      seedCategoryList.foldl seedCatStep store.categories :=
    seedCatFold_id _ _
      (fun c hc => seedCatFold_covers seedCategoryList store.categories c hc)
  have harts : seedSampleList.foldl (seedArtStep now2)
      ((seedSampleList.foldl (seedArtStep now) (store.articles, 0)).1, 0) =
      ((seedSampleList.foldl (seedArtStep now) (store.articles, 0)).1, 0) :=
    seedArtFold_id now2 _ _
      (fun s hs =>
        seedArtFold_covers now seedSampleList (store.articles, 0) s hs)
  simp only [seed_sample]
  rw [hcats, harts]

end NewsMain
